import Mathlib

/-!
Verification development for the lead-harvesting pipeline
(`enrich_urls.mjs` together with `scoring_config.mjs`).

The JavaScript sources are embedded shallowly:

* JS strings are modelled as `String` / `List Char`; all scanning routines
  work on `List Char` so that they are executable and kernel-reducible.
* JS numbers appearing in the score table are exact multiples of `1/2`,
  so arithmetic on them in IEEE doubles is exact; they are modelled as `Rat`.
* The network and the on-disk cache are modelled as explicit parameters
  (a deterministic oracle `String → NetOutcome`, and a key/value store).
* `tldts.parse` is modelled by `parseDomain` below; the code under
  verification only ever reads the `hostname` field of the parse result.
-/

namespace Leads

/-! ## Character and list utilities (JS string semantics) -/

/-- Word character of a JS regular expression (`\w` without the unicode
flag): ASCII letters, digits and underscore. -/
def isWordChar (c : Char) : Bool :=
  c.isAlpha || c.isDigit || c = '_'

/-- ASCII lower-casing, modelling `String.prototype.toLowerCase` on the
ASCII fragment that the configuration tokens live in. -/
def toLowerList (cs : List Char) : List Char :=
  cs.map Char.toLower

/-- First list is a prefix of the second (character-exact). -/
def startsWithList : List Char → List Char → Bool
  | [], _ => true
  | _ :: _, [] => false
  | p :: ps, c :: cs => p = c && startsWithList ps cs

/-- The pattern occurs somewhere in the text (JS `String.prototype.includes`). -/
def containsList (text pat : List Char) : Bool :=
  (List.range (text.length + 1)).any fun i => startsWithList pat (text.drop i)

/-- The suffix test of JS `String.prototype.endsWith`. -/
def endsWithList (cs suffix : List Char) : Bool :=
  startsWithList suffix.reverse cs.reverse

/-- Whitespace in the sense of JS `\s` restricted to its ASCII core. -/
def isJsSpace (c : Char) : Bool :=
  c = ' ' || c = '\t' || c = '\n' || c = '\r'

/-- JS `String.prototype.trim` on a character list. -/
def jsTrim (cs : List Char) : List Char :=
  ((cs.dropWhile isJsSpace).reverse.dropWhile isJsSpace).reverse

/-! ## scoring_config.mjs -/

/-- Token-weight table `WEIGHTS` of `scoring_config.mjs`, in source order. -/
def WEIGHTS : List (String × Rat) :=
  [("api", 3), ("rest api", 3), ("graphql", 2), ("sdk", 3), ("webhook", 2),
   ("webhooks", 2), ("cli", 2), ("command line", 2), ("github app", 2),
   ("integration", 1), ("integrations", 1), ("status page", 1), ("changelog", 1),
   ("developer", 2), ("developers", 2), ("devops", 2), ("infrastructure", 1),
   ("deployment", 1), ("ci/cd", 2), ("automation", 1),
   ("per seat", 2), ("per user", 2), ("workspace", 2), ("workspaces", 2),
   ("team", 2), ("teams", 2), ("team plan", 2), ("saml", 3), ("sso", 3),
   ("single sign-on", 3), ("audit log", 2), ("audit logs", 2), ("rbac", 2),
   ("role-based", 2), ("enterprise", 1), ("enterprise plan", 2),
   ("organization", 1), ("organizations", 1), ("collaboration", 1),
   ("collaborate", 1),
   ("pricing", 1), ("signup", 1), ("sign up", 1), ("get started", 1),
   ("demo", 1), ("request demo", 1), ("trial", 1), ("free trial", 1),
   ("docs", 2), ("documentation", 2), ("api reference", 3),
   ("getting started", 1),
   ("careers", 1), ("hiring", 1), ("we are hiring", 1), ("we\x27re hiring", 1),
   ("join us", 1), ("join our team", 1), ("security policy", 1),
   ("security", 1), ("soc 2", 2), ("soc2", 2), ("gdpr", 1), ("compliance", 1),
   ("about us", mkRat 1 2), ("our team", mkRat 1 2), ("roadmap", 1), ("status", 1),
   ("show hn", 2), ("product hunt", 2), ("launching today", 2),
   ("just launched", 2), ("beta", 1), ("early access", 1), ("coming soon", 1),
   ("now available", 1), ("announcing", 1),
   ("blog", -1), ("wordpress", -2), ("powered by wordpress", -2),
   ("powered by", -1), ("tutorial", -1), ("course", -1), ("learn", mkRat (-1) 2),
   ("buy now", -2), ("ecommerce", -2), ("shop", -2), ("store", -1),
   ("portfolio", -1), ("resume", -2), ("personal website", -2), ("game", -2),
   ("download", -1)]

/-- `DEV_SIGNALS` of `scoring_config.mjs`. -/
def DEV_SIGNALS : List String :=
  ["api", "rest api", "graphql", "sdk", "webhook", "webhooks",
   "cli", "command line", "github app", "docs", "documentation",
   "api reference", "developer", "developers", "devops"]

/-- `TEAM_SIGNALS` of `scoring_config.mjs`. -/
def TEAM_SIGNALS : List String :=
  ["workspace", "workspaces", "team", "teams", "per seat", "per user",
   "saml", "sso", "single sign-on", "audit log", "audit logs",
   "rbac", "role-based", "enterprise plan", "team plan", "organization",
   "organizations"]

/-- `PRICING_MODELS` of `scoring_config.mjs`, in source (object insertion)
order; each entry is a model name with its substring patterns. -/
def PRICING_MODELS : List (String × List String) :=
  [("per_seat", ["per seat", "per user", "/user", "/seat"]),
   ("per_workspace", ["per workspace", "per organization", "per team"]),
   ("usage_based", ["usage-based", "pay as you go", "per request", "per api call"]),
   ("flat_rate", ["flat rate", "unlimited", "fixed price"]),
   ("freemium", ["free plan", "free tier", "free forever"]),
   ("open_source", ["open source", "open-source", "self-hosted", "self hosted"]),
   ("enterprise", ["enterprise pricing", "custom pricing", "contact sales"])]

/-- The threshold configuration record of `scoring_config.mjs`. -/
structure Thresholds where
  minimum_score : Rat
  require_team_cue : Bool
  require_dev_signal : Bool
  deriving DecidableEq

/-- `THRESHOLDS` of `scoring_config.mjs`. -/
def THRESHOLDS : Thresholds :=
  { minimum_score := 5, require_team_cue := true, require_dev_signal := true }

/-- `BUILDER_DOMAINS` of `scoring_config.mjs` (a JS `Set` of strings). -/
def BUILDER_DOMAINS : List String :=
  ["wix.com", "webflow.io", "squarespace.com", "carrd.co",
   "wordpress.com", "weebly.com", "jimdo.com", "site123.com"]

/-- `SKIP_DOMAINS` of `scoring_config.mjs` (a JS `Set` of strings). -/
def SKIP_DOMAINS : List String :=
  ["github.com", "substack.com", "steampowered.com", "medium.com",
   "wordpress.com", "blogspot.com", "tumblr.com", "wixsite.com",
   "marketplace.visualstudio.com", "chrome.google.com", "addons.mozilla.org",
   "play.google.com", "apps.apple.com", "reddit.com", "twitter.com",
   "linkedin.com", "facebook.com", "instagram.com", "youtube.com"]

/-- `MULTI_TENANT_SUFFIXES` of `scoring_config.mjs`. -/
def MULTI_TENANT_SUFFIXES : List String :=
  ["vercel.app", "netlify.app", "github.io", "herokuapp.com",
   "azurewebsites.net", "cloudfront.net", "amplifyapp.com",
   "web.app", "firebaseapp.com", "pages.dev", "repl.co",
   "glitch.me", "now.sh", "railway.app"]

/-! ## The tldts model and the identity resolver -/

/-- Characters tldts accepts inside a hostname. -/
def isHostChar (c : Char) : Bool :=
  c.isAlpha || c.isDigit || c = '-' || c = '_' || c = '.'

/-- Hostname validity: nonempty, bounded length, only hostname characters.
Modelled after the validation tldts performs before filling in the parse
result; the label-level checks are omitted because nothing verified here
depends on them. -/
def validHostname (cs : List Char) : Bool :=
  decide (0 < cs.length) && decide (cs.length ≤ 255) && cs.all isHostChar

/-- Result of `tldts.parse` restricted to the single field the pipeline
reads.  `hostname` is the lower-cased input when it is a valid hostname and
`none` (JS `null`) otherwise. -/
structure ParseResult where
  hostname : Option String
  deriving DecidableEq

/-- Model of `parse` from the tldts package (imported as `parseDomain`). -/
def parseDomain (host : String) : ParseResult :=
  let low := toLowerList host.data
  { hostname := if validHostname low then some (String.mk low) else none }

/-- JS `a || b` on a nullable string: the fallback is taken when the value
is `null` or the empty string (both falsy). -/
def jsOr (a : Option String) (b : String) : String :=
  match a with
  | none => b
  | some s => if s = "" then b else s

/-- `getCanonical` of enrich_urls.mjs.  Note that the source reads
`parseDomain(hostname).hostname` (the full parsed hostname), not the
registrable-domain field, into its `regDomain` variable. -/
def getCanonical (hostname : String) : String :=
  let regDomain := jsOr (parseDomain hostname).hostname hostname
  let isMultiTenant :=
    MULTI_TENANT_SUFFIXES.any fun suffix => endsWithList hostname.data suffix.data
  if isMultiTenant then hostname else regDomain

/-- `shouldSkip` of enrich_urls.mjs. -/
def shouldSkip (hostname : String) : Bool :=
  let regDomain := jsOr (parseDomain hostname).hostname hostname
  decide (regDomain ∈ SKIP_DOMAINS)

/-- `isBuilder` of enrich_urls.mjs. -/
def isBuilder (hostname : String) : Bool :=
  let regDomain := jsOr (parseDomain hostname).hostname hostname
  decide (regDomain ∈ BUILDER_DOMAINS)

/-! ## The weighted scorer (`scoreContent` of enrich_urls.mjs)

The source tests each configured token with
`new RegExp('\\b' + escaped(token) + '\\b', 'i')` against the already
lower-cased page text.  After escaping, the token is a literal, so the
test is: the token occurs at some position with a `\b` word boundary on
each side.  A `\b` boundary holds at a position exactly when one side is a
`\w` character and the other is not (or is the edge of the text).  The
configuration tokens are lower-case, and the text is lower-cased before
matching, which realises the `i` flag. -/

/-- Is the character at index `i` (if any) a word character? -/
def wordAt (text : List Char) (i : Nat) : Bool :=
  match text.get? i with
  | some c => isWordChar c
  | none => false

/-- JS regex `\b` at position `p` of `text`. -/
def boundaryAt (text : List Char) (p : Nat) : Bool :=
  (if p = 0 then false else wordAt text (p - 1)) != wordAt text p

/-- The literal token matches at position `i` with word boundaries on both
sides (the regex `\btoken\b`). -/
def matchTokenAt (text tok : List Char) (i : Nat) : Bool :=
  startsWithList tok (text.drop i) && boundaryAt text i &&
    boundaryAt text (i + tok.length)

/-- `\btoken\b` matches somewhere in the text. -/
def testWordRegex (text tok : List Char) : Bool :=
  (List.range (text.length + 1)).any fun i => matchTokenAt text tok i

/-- A variant with only the leading boundary, for the flag-style
`/\bwebhook/i` source pattern. -/
def testWordOpen (text tok : List Char) : Bool :=
  (List.range (text.length + 1)).any fun i =>
    startsWithList tok (text.drop i) && boundaryAt text i

/-- An alternation `\b(a|b|…)\b`: some alternative matches with boundaries. -/
def testAnyWord (text : List Char) (alts : List String) : Bool :=
  alts.any fun a => testWordRegex text a.data

/-- The four signal buckets accumulated by `scoreContent`. -/
structure Signals where
  dev : List String
  team : List String
  launch : List String
  negative : List String
  deriving DecidableEq

/-- The bucket classification applied to a matched token (the body of the
`if regex.test(text)` branch in `scoreContent`). -/
def classifyToken (sg : Signals) (token : String) (weight : Rat) : Signals :=
  if token ∈ DEV_SIGNALS then { sg with dev := sg.dev ++ [token] }
  else if token ∈ TEAM_SIGNALS then { sg with team := sg.team ++ [token] }
  else if weight < 0 then { sg with negative := sg.negative ++ [token] }
  else if token ∈ ["show hn", "product hunt", "beta", "launching"] then
    { sg with launch := sg.launch ++ [token] }
  else sg

/-- Exact rational addition written through `mkRat` so that it reduces in
the kernel (`Rat.add` itself is irreducible).  The JS source adds IEEE
doubles, which is exact on the half-integer weights involved; `ratAdd` is
proved equal to ordinary rational addition below. -/
def ratAdd (a b : Rat) : Rat :=
  mkRat (a.num * b.den + b.num * a.den) (a.den * b.den)

/-- One iteration of the token scan: add the weight and classify when the
token matches, otherwise leave the accumulator unchanged. -/
def scanToken (text : List Char) (acc : Rat × Signals) (tw : String × Rat) :
    Rat × Signals :=
  if testWordRegex text tw.1.data then
    (ratAdd acc.1 tw.2, classifyToken acc.2 tw.1 tw.2)
  else acc

/-- The full scan over the `WEIGHTS` table, in its source order. -/
def scanWeights (text : List Char) : Rat × Signals :=
  WEIGHTS.foldl (scanToken text) (0, ⟨[], [], [], []⟩)

/-- The fixed boolean capability flags computed by `scoreContent`. -/
structure PageFlags where
  pricing : Bool
  docs : Bool
  signup : Bool
  changelog : Bool
  api : Bool
  webhook : Bool
  cli : Bool
  sdk : Bool
  careers : Bool
  privacy : Bool
  terms : Bool
  deriving DecidableEq

/-- The pass/fail cascade of `scoreContent`: `passed` starts as
`meetsMinimum` and the first failing check in order sets the reason. -/
def passFail (meetsMinimum hasDevSignal hasTeamCue : Bool) : Bool × String :=
  if !meetsMinimum then (false, "below_threshold")
  else if THRESHOLDS.require_dev_signal && !hasDevSignal then
    (false, "no_dev_signal")
  else if THRESHOLDS.require_team_cue && !hasTeamCue then
    (false, "no_team_cue")
  else (meetsMinimum, "")

/-- Result record of `scoreContent`. -/
structure ScoreResult where
  weightedScore : Rat
  flags : PageFlags
  detectedSignals : Signals
  passed : Bool
  filterReason : String
  pricingModel : String
  teamCue : String
  hasDevSignal : Bool
  hasTeamCue : Bool
  deriving DecidableEq

/-- The lower-cased combined text `(html + ' ' + title).toLowerCase()`. -/
def scoreText (html title : String) : List Char :=
  toLowerList (html.data ++ ' ' :: title.data)

/-- `scoreContent` of enrich_urls.mjs.  The third argument is unused in
the source body as well. -/
def scoreContent (html title sourceUrl : String) : ScoreResult :=
  let text := scoreText html title
  let scanned := scanWeights text
  let weightedScore := scanned.1
  let detectedSignals := scanned.2
  let flags : PageFlags :=
    { pricing := testWordRegex text "pricing".data
      docs := testAnyWord text ["docs", "documentation", "api reference"]
      signup := testAnyWord text ["signup", "sign up", "get started", "register"]
      changelog := testWordRegex text "changelog".data
      api := testAnyWord text ["api", "rest api", "graphql"]
      webhook := testWordOpen text "webhook".data
      cli := testAnyWord text ["cli", "command line"]
      sdk := testWordRegex text "sdk".data
      careers := testAnyWord text ["careers", "hiring", "we\x27re hiring", "join us"]
      privacy := testAnyWord text ["privacy policy", "/privacy"]
      terms := testAnyWord text ["terms of service", "/terms"] }
  let hasDevSignal := !detectedSignals.dev.isEmpty
  let hasTeamCue := !detectedSignals.team.isEmpty
  let meetsMinimum := decide (THRESHOLDS.minimum_score ≤ weightedScore)
  let pf := passFail meetsMinimum hasDevSignal hasTeamCue
  let pricingModel :=
    match PRICING_MODELS.find? (fun mp =>
      mp.2.any fun p => containsList text p.data) with
    | some mp => mp.1
    | none => ""
  { weightedScore := weightedScore
    flags := flags
    detectedSignals := detectedSignals
    passed := pf.1
    filterReason := pf.2
    pricingModel := pricingModel
    teamCue := (detectedSignals.team.head?).getD ""
    hasDevSignal := hasDevSignal
    hasTeamCue := hasTeamCue }

/-! ## Entity decoding and email extraction -/

/-- Case-optional prefix test; with `ci` it models matching under the JS
regex `i` flag. -/
def startsWithCI (ci : Bool) : List Char → List Char → Bool
  | [], _ => true
  | _ :: _, [] => false
  | p :: ps, c :: cs =>
    (if ci then p.toLower = c.toLower else p = c) && startsWithCI ci ps cs

/-- Global replacement of a fixed pattern, scanning left to right without
rescanning replacements — the semantics of `String.prototype.replace` with
a literal `g`-flagged pattern.  The fuel argument only bounds recursion
(each step consumes at least one character, so `length + 1` suffices); it
keeps the definition structural and hence kernel-computable. -/
def replaceAllAux (ci : Bool) (pat rep : List Char) : Nat → List Char → List Char
  | 0, l => l
  | _ + 1, [] => []
  | fuel + 1, c :: cs =>
    if startsWithCI ci pat (c :: cs) && !pat.isEmpty then
      rep ++ replaceAllAux ci pat rep fuel (List.drop (pat.length - 1) cs)
    else
      c :: replaceAllAux ci pat rep fuel cs

/-- Entry point of the global literal replacement. -/
def replaceAll (ci : Bool) (pat rep cs : List Char) : List Char :=
  replaceAllAux ci pat rep (cs.length + 1) cs

/-- Hexadecimal digit of the `[0-9a-f]` class under the `i` flag. -/
def isHexDigitCh (c : Char) : Bool :=
  c.isDigit || ('a' ≤ c && c ≤ 'f') || ('A' ≤ c && c ≤ 'F')

/-- Value of a hexadecimal digit. -/
def hexDigitVal (c : Char) : Nat :=
  if c.isDigit then c.toNat - '0'.toNat else (c.toLower.toNat - 'a'.toNat) + 10

/-- `parseInt(digits, 16)`. -/
def hexToNat (ds : List Char) : Nat :=
  ds.foldl (fun a c => a * 16 + hexDigitVal c) 0

/-- `parseInt(digits, 10)`. -/
def decToNat (ds : List Char) : Nat :=
  ds.foldl (fun a c => a * 10 + (c.toNat - '0'.toNat)) 0

/-- `String.fromCharCode`: the code is taken modulo 2^16 (ToUint16); code
points that are not valid Lean characters (lone surrogates) fall back to
the `Char.ofNat` default, which no verified claim depends on. -/
def fromCharCode (n : Nat) : Char :=
  Char.ofNat (n % 65536)

/-- Decoding pass for `&#x…;` entities (`/&#x([0-9a-f]+);/gi`), with the
same fuel convention as `replaceAllAux`. -/
def decodeHexEntitiesAux : Nat → List Char → List Char
  | 0, l => l
  | _ + 1, [] => []
  | fuel + 1, '&' :: '#' :: x :: rest =>
    if x = 'x' || x = 'X' then
      match rest.dropWhile isHexDigitCh with
      | ';' :: tail =>
        if (rest.takeWhile isHexDigitCh).isEmpty then
          '&' :: decodeHexEntitiesAux fuel ('#' :: x :: rest)
        else
          fromCharCode (hexToNat (rest.takeWhile isHexDigitCh)) ::
            decodeHexEntitiesAux fuel tail
      | _ => '&' :: decodeHexEntitiesAux fuel ('#' :: x :: rest)
    else '&' :: decodeHexEntitiesAux fuel ('#' :: x :: rest)
  | fuel + 1, c :: cs => c :: decodeHexEntitiesAux fuel cs

/-- Entry point of the hex-entity pass. -/
def decodeHexEntities (cs : List Char) : List Char :=
  decodeHexEntitiesAux (cs.length + 1) cs

/-- Decoding pass for `&#…;` entities (`/&#([0-9]+);/g`). -/
def decodeDecEntitiesAux : Nat → List Char → List Char
  | 0, l => l
  | _ + 1, [] => []
  | fuel + 1, '&' :: '#' :: rest =>
    match rest.dropWhile Char.isDigit with
    | ';' :: tail =>
      if (rest.takeWhile Char.isDigit).isEmpty then
        '&' :: decodeDecEntitiesAux fuel ('#' :: rest)
      else
        fromCharCode (decToNat (rest.takeWhile Char.isDigit)) ::
          decodeDecEntitiesAux fuel tail
    | _ => '&' :: decodeDecEntitiesAux fuel ('#' :: rest)
  | fuel + 1, c :: cs => c :: decodeDecEntitiesAux fuel cs

/-- Entry point of the decimal-entity pass. -/
def decodeDecEntities (cs : List Char) : List Char :=
  decodeDecEntitiesAux (cs.length + 1) cs

/-- Characters stripped by the final `/^[\s<>]+|[\s<>]+$/g` pass. -/
def isEdgeChar (c : Char) : Bool :=
  isJsSpace c || c = '<' || c = '>'

/-- Strip leading and trailing `[\s<>]` runs. -/
def stripEdges (cs : List Char) : List Char :=
  ((cs.dropWhile isEdgeChar).reverse.dropWhile isEdgeChar).reverse

/-- `decodeHtmlEntities` of enrich_urls.mjs: the replacement passes in
source order. -/
def decodeHtmlEntities (text : String) : String :=
  let s := text.data
  let s := replaceAll true "u003e".data ">".data s
  let s := replaceAll true "u003c".data "<".data s
  let s := replaceAll true "u0026".data "&".data s
  let s := replaceAll true "u0022".data "\"".data s
  let s := replaceAll true "u0027".data "\x27".data s
  let s := decodeHexEntities s
  let s := decodeDecEntities s
  let s := replaceAll false "&quot;".data "\"".data s
  let s := replaceAll false "&apos;".data "\x27".data s
  let s := replaceAll false "&lt;".data "<".data s
  let s := replaceAll false "&gt;".data ">".data s
  let s := replaceAll false "&amp;".data "&".data s
  String.mk (stripEdges s)

/-- Character class of the local part, `[A-Z0-9._%+-]` under `i`. -/
def emailLocalChar (c : Char) : Bool :=
  c.isAlpha || c.isDigit || c = '.' || c = '_' || c = '%' || c = '+' || c = '-'

/-- Character class of the domain part, `[A-Z0-9.-]` under `i`. -/
def emailDomChar (c : Char) : Bool :=
  c.isAlpha || c.isDigit || c = '.' || c = '-'

/-- Backtracking step for `[A-Z0-9.-]+\.[A-Z]{2,}` inside the maximal
domain-character run: the engine prefers the longest `+` part, so the
split is at the right-most dot that is followed by at least two letters;
`{2,}` then greedily takes the whole letter run. -/
def domSplit (dom : List Char) : Option (List Char × List Char) :=
  (List.range dom.length).reverse.findSome? fun j =>
    if 1 ≤ j ∧ dom.get? j = some '.' then
      let run := (dom.drop (j + 1)).takeWhile Char.isAlpha
      if 2 ≤ run.length then
        some (dom.take (j + 1) ++ run, dom.drop (j + 1 + run.length))
      else none
    else none

/-- One attempt of the email regex at the head of `cs`; on success returns
the matched text and the remainder after the match. -/
def matchEmailAt (cs : List Char) : Option (List Char × List Char) :=
  let loc := cs.takeWhile emailLocalChar
  if loc.isEmpty then none
  else
    match cs.dropWhile emailLocalChar with
    | '@' :: rest =>
      let dom := rest.takeWhile emailDomChar
      let after := rest.dropWhile emailDomChar
      match domSplit dom with
      | some (matched, leftover) =>
        some (loc ++ '@' :: matched, leftover ++ after)
      | none => none
    | _ => none

/-- Left-to-right global scan of the email regex: on a failed attempt the
engine advances one position, on a match it continues after the match.
The fuel argument bounds the recursion; `length + 1` always suffices
because every step consumes at least one character. -/
def scanEmailsAux : Nat → List Char → List (List Char)
  | 0, _ => []
  | _ + 1, [] => []
  | fuel + 1, c :: cs =>
    match matchEmailAt (c :: cs) with
    | some (m, rest) => m :: scanEmailsAux fuel rest
    | none => scanEmailsAux fuel cs

/-- The blocklist `bad` of `extractEmails`. -/
def BAD_EMAIL_PATTERNS : List String :=
  ["noreply@", "no-reply@", "donotreply@", "do-not-reply@",
   "you@example.com", "your@email.com", "email@domain.com",
   "test@example.com", "user@example.com", "name@example.com",
   "@example.com", "example@", "test@test.com", "email@email.com",
   "info@", "admin@", "webmaster@", "postmaster@"]

/-- The confidence key `getScore` used by the comparator inside
`extractEmails`. -/
def getScore (email : List Char) : Nat :=
  let lower := toLowerList email
  if containsList lower "support@".data then 2
  else if containsList lower "contact@".data then 2
  else if containsList lower "hello@".data then 3
  else if containsList lower "team@".data then 3
  else 4

/-- Stable descending insertion by `getScore`; an element sinks past an
earlier one only when that one scores strictly higher, which reproduces
the (stable) JS `sort((a, b) => getScore(b) - getScore(a))`. -/
def insertByScoreDesc (x : List Char) : List (List Char) → List (List Char)
  | [] => [x]
  | y :: ys =>
    if getScore x < getScore y then y :: insertByScoreDesc x ys
    else x :: y :: ys

/-- The stable sort used on the surviving emails. -/
def sortByScoreDesc (es : List (List Char)) : List (List Char) :=
  es.foldr insertByScoreDesc []

/-- `[...new Set(xs)]`: deduplicate keeping first occurrences. -/
def dedupeKeepFirst (seen : List (List Char)) : List (List Char) → List (List Char)
  | [] => []
  | e :: es =>
    if e ∈ seen then dedupeKeepFirst seen es
    else e :: dedupeKeepFirst (e :: seen) es

/-- `extractEmails` of enrich_urls.mjs. -/
def extractEmails (text : String) : List String :=
  let decoded := (decodeHtmlEntities text).data
  let m := scanEmailsAux (decoded.length + 1) decoded
  let filtered := m.filter fun e =>
    let lower := toLowerList e
    !(BAD_EMAIL_PATTERNS.any fun b => containsList lower b.data || lower = b.data)
  let emails := dedupeKeepFirst [] filtered
  ((sortByScoreDesc emails).take 5).map String.mk

/-- `getEmailConfidence` of enrich_urls.mjs. -/
def getEmailConfidence (emails : List String) : String :=
  match emails with
  | [] => "none"
  | first :: _ =>
    let lower := toLowerList first.data
    if containsList lower "support@".data || containsList lower "contact@".data then
      "medium"
    else if containsList lower "hello@".data || containsList lower "team@".data then
      "high"
    else "high"

/-! ## Value proposition extraction

`extractValueProp` reads the parsed page through cheerio.  The parsed page
is modelled as a record of the queries the function performs: the first
`h1` text, the two meta-description attributes (JS `undefined` is `none`;
the source appends an empty-string fallback), and the text of each `p` element in document
order. -/

/-- Cheerio-level view of the parsed page. -/
structure Page where
  h1 : Option String
  metaDescription : Option String
  ogDescription : Option String
  paragraphs : List String
  deriving DecidableEq

/-- The truthiness-and-length test `!valueProp || valueProp.length < 10`
guarding each fallback step. -/
def vpTooShort (v : List Char) : Bool :=
  v.isEmpty || decide (v.length < 10)

/-- The preference cascade of `extractValueProp`: trimmed first `h1`
text, else the meta description, else the Open-Graph description, else
the first paragraph whose trimmed length is strictly between 20 and 200
(each step taken when the previous value is absent or shorter than 10). -/
def vpChoice (p : Page) : List Char :=
  let v1 := jsTrim (p.h1.getD "").data
  let v2 := if vpTooShort v1 then (p.metaDescription.getD "").data else v1
  let v3 := if vpTooShort v2 then (p.ogDescription.getD "").data else v2
  if vpTooShort v3 then
    match p.paragraphs.findSome? (fun t =>
      let tt := jsTrim t.data
      if 20 < tt.length ∧ tt.length < 200 then some tt else none) with
    | some t => t
    | none => v3
  else v3

/-- `extractValueProp` of enrich_urls.mjs: the chosen candidate, capped
at 120 characters (`slice(0, 120)`) and trimmed. -/
def extractValueProp (p : Page) : String :=
  String.mk (jsTrim ((vpChoice p).take 120))

/-! ## Fetch and probe cache -/

/-- A stored probe-cache entry: HTTP status, capped body, write time in
milliseconds. -/
structure CacheEntry where
  status : Nat
  html : String
  timestamp : Nat
  deriving DecidableEq

/-- The cache TTL: 7 days in milliseconds. -/
def CACHE_TTL_MS : Nat := 7 * 24 * 60 * 60 * 1000

/-- Directory prefix of cache keys. -/
def CACHE_DIR : String := ".cache"

/-- `canonical.replace(/[^a-z0-9]/gi, '_')`. -/
def sanitizeName (cs : List Char) : List Char :=
  cs.map fun c => if c.isAlpha || c.isDigit then c else '_'

/-- `path.replace(/\//g, '_')`. -/
def sanitizePath (cs : List Char) : List Char :=
  cs.map fun c => if c = '/' then '_' else c

/-- The 8-hex-character md5 prefix over `canonical + path + date` is
modelled as the identity on its input: an ideal, collision-free digest.
Only its injectivity matters to the cache-key facts proved below. -/
def md5hex8 (s : String) : String := s

/-- `getCacheKey` of enrich_urls.mjs.  The source computes
`new Date().toISOString().split('T')[0]` — the current calendar day — and
mixes it into the hashed key; the day is therefore a parameter here. -/
def getCacheKey (canonical path day : String) : String :=
  String.mk (CACHE_DIR.data ++ '/' :: sanitizeName canonical.data ++
    '_' :: sanitizePath path.data ++
    '_' :: (md5hex8 (canonical ++ path ++ day)).data ++ ".cache".data)

/-- The cache-read step of `fetchHtml` (lines 104–115): look up the key
computed from the hostname, path and the current day; serve the entry only
when its age is below the TTL. -/
def readCache (store : String → Option CacheEntry) (today : String)
    (now : Nat) (host path : String) : Option CacheEntry :=
  match store (getCacheKey host path today) with
  | some cached => if now - cached.timestamp < CACHE_TTL_MS then some cached else none
  | none => none

/-- Outcome of one network attempt: `fetch` + `r.text()` succeeding with a
status and body, or any failure (network error, timeout abort, unreadable
body), which the source catches. -/
inductive NetOutcome where
  | ok (status : Nat) (body : String)
  | err
  deriving DecidableEq

/-- Result record of `fetchHtml`: `{ status, html, cached }`. -/
structure FetchResult where
  status : Nat
  html : String
  cached : Bool
  deriving DecidableEq

/-- `fetchHtml` of enrich_urls.mjs.  `net` is the outcome the network
would produce for this request (the timeout parameter only influences
which requests abort, i.e. which produce `NetOutcome.err`).  Returns the
result together with the list of cache writes performed. -/
def fetchHtml (net : NetOutcome) (store : String → Option CacheEntry)
    (today : String) (now : Nat) (host path : String)
    (timeoutMs : Nat) (useCache : Bool) :
    FetchResult × List (String × CacheEntry) :=
  match (if useCache then readCache store today now host path else none) with
  | some cached => ({ status := cached.status, html := cached.html, cached := true }, [])
  | none =>
    match net with
    | .err => ({ status := 0, html := "", cached := false }, [])
    | .ok status body =>
      let writes :=
        if useCache && (decide (200 ≤ status) && decide (status < 400)) then
          [(getCacheKey host path today,
            { status := status, html := String.mk (body.data.take 200000),
              timestamp := now })]
        else []
      ({ status := status, html := body, cached := false }, writes)

/-! ## Enrichment orchestrator

The main loop of enrich_urls.mjs (lines 465–594) is embedded as a fold
over the candidate work queue.  The network is a deterministic oracle
`String → NetOutcome` keyed by request URL.  Subpage probes go through
the on-disk cache in the source; the cache is transparent to everything
the loop observes, because a cache hit replays the recorded status and a
200 000-character body cap while the loop consumes only the status and
the first 100 000 characters, so the probes are modelled directly through
the oracle. -/

/-- Characters before the first case-insensitive occurrence of the
pattern (the whole list when the pattern does not occur). -/
def takeUntilCI (pat : List Char) : List Char → List Char
  | [] => []
  | c :: cs =>
    if startsWithCI true pat (c :: cs) then []
    else c :: takeUntilCI pat cs

/-- Remainder after the first case-insensitive occurrence of the pattern,
or `none` when it does not occur. -/
def dropThroughCI (pat : List Char) : List Char → Option (List Char)
  | [] => none
  | c :: cs =>
    if startsWithCI true pat (c :: cs) then some (List.drop (pat.length - 1) cs)
    else dropThroughCI pat cs

/-- Model of the title read, trimmed and capped at 200 characters:
the text between the first `<title…>` tag and the closing `</title`. -/
def extractTitle (html : String) : String :=
  match dropThroughCI "<title".data html.data with
  | none => ""
  | some rest =>
    match dropThroughCI ">".data rest with
    | none => ""
    | some rest2 =>
      String.mk ((jsTrim (takeUntilCI "</title".data rest2)).take 200)

/-- One input candidate: the URL as read from the input file, its parsed
hostname (`new URL(u).hostname`), and the source tag from `sourceMap`. -/
structure Candidate where
  href : String
  hostname : String
  source : String
  deriving DecidableEq

/-- The slice of the emitted Lead row that dedup, routing, statistics and
the persisted store observe.  The remaining CSV columns (value
proposition, flags, emails, freshness, personalization seed, …) are
enrichment-only outputs that no later control flow reads; they are
verified through their own extraction functions above. -/
structure Lead where
  source : String
  sourceUrl : String
  sourceHost : String
  canonical : String
  title : String
  status : Nat
  weightedScore : Rat
  filterReason : String
  deriving DecidableEq

/-- View of one `fetchHtml` call through the oracle: a failure is the
caught result with status 0 and an empty body. -/
def netToResult (net : NetOutcome) : FetchResult :=
  match net with
  | .ok status body => { status := status, html := body, cached := false }
  | .err => { status := 0, html := "", cached := false }

/-- The fixed probe list of the main loop. -/
def PROBE_PATHS : List String :=
  ["/pricing", "/docs", "/documentation", "/api", "/changelog", "/contact",
   "/about", "/team", "/careers", "/legal", "/privacy"]

/-- The `extraHtml` accumulation: each probe with a 2xx/3xx status
contributes the first 100 000 characters of its body, in probe order;
failed probes contribute nothing and stop nothing. -/
def probesHtml (oracle : String → NetOutcome) (home : String) : String :=
  String.mk ((PROBE_PATHS.map fun probePath =>
    let r := netToResult (oracle (home ++ probePath))
    if 200 ≤ r.status ∧ r.status < 400 then r.html.data.take 100000 else []).join)

/-- Model of the cheerio anchor query for `http`-prefixed links:
collect `href="…"` attribute values that start with `http`. -/
def extractHttpLinksAux : Nat → List Char → List String
  | 0, _ => []
  | _ + 1, [] => []
  | fuel + 1, c :: cs =>
    if startsWithCI false "href=\"".data (c :: cs) then
      let rest := List.drop 5 cs
      let val := rest.takeWhile (fun ch => ch != '"')
      let rest2 := rest.dropWhile (fun ch => ch != '"')
      if startsWithList "http".data val then
        String.mk val :: extractHttpLinksAux fuel rest2
      else extractHttpLinksAux fuel rest2
    else extractHttpLinksAux fuel cs

/-- Entry point of the link extraction. -/
def extractHttpLinks (html : String) : List String :=
  extractHttpLinksAux (html.data.length + 1) html.data

/-- Model of `new URL(link).hostname`: the authority after `://` up to a
delimiter, lower-cased; `none` models a URL-parse failure, which the
try/catch in the source skips. -/
def urlHostname (link : String) : Option String :=
  match dropThroughCI "://".data link.data with
  | none => none
  | some rest =>
    let host := rest.takeWhile fun ch =>
      ch != '/' && ch != ':' && ch != '?' && ch != '#'
    if host.isEmpty then none else some (String.mk (toLowerList host))

/-- `resolveGitHubRepo` of enrich_urls.mjs: the first outbound link whose
parsed-hostname field differs from the repo/social hosts.  Note the
source again reads `parseDomain(hostname).hostname` (without fallback)
into its `regDomain` variable. -/
def resolveGitHubRepo (html repoUrl : String) : Option String :=
  (extractHttpLinks html).findSome? fun link =>
    match urlHostname link with
    | none => none
    | some host =>
      let regDomain := (parseDomain host).hostname
      if regDomain ≠ some "github.com" ∧ regDomain ≠ some "twitter.com" ∧
          regDomain ≠ some "linkedin.com" ∧
          startsWithList "www.google.".data host.data = false then
        some link
      else none

/-- Outcome of the loop body for one candidate. -/
inductive StepOut where
  | aggregator
  | duplicate
  | githubDrop
  | github (inject : Option String)
  | fetchFailed
  | filtered (lead : Lead)
  | kept (lead : Lead)
  deriving DecidableEq

/-- The routing decision of lines 581–593: builder platforms still below
the minimum after the penalty are filtered as `builder_platform`, then
the pass/fail decision of the scorer routes filtered versus kept. -/
def routeStep (builder : Bool) (scoring : ScoreResult) (finalScore : Rat)
    (lead : Lead) : StepOut :=
  if builder && decide (finalScore < THRESHOLDS.minimum_score) then
    .filtered { lead with filterReason := "builder_platform" }
  else if !scoring.passed then
    .filtered { lead with filterReason := scoring.filterReason }
  else .kept lead

/-- Primary fetch of the original candidate URL, falling back to the
homepage guess `https://` + canonical when the first body is empty
(lines 504–506). -/
def pickPage (oracle : String → NetOutcome) (c : Candidate) (home : String) :
    FetchResult :=
  let first := netToResult (oracle c.href)
  if first.html ≠ "" then first else netToResult (oracle home)

/-- The fetch/score/route tail of the loop body (lines 503–593), which no
longer consults the dedup index. -/
def enrichCandidate (oracle : String → NetOutcome) (c : Candidate) : StepOut :=
  let canonical := getCanonical c.hostname
  let home := "https://" ++ canonical
  let first := netToResult (oracle c.href)
  let page := pickPage oracle c home
  if page.html = "" then .fetchFailed
  else
    let title := extractTitle page.html
    let extraHtml := probesHtml oracle home
    let allHtml := page.html ++ extraHtml
    let scoring := scoreContent allHtml title c.href
    let builderPenalty : Rat := if isBuilder c.hostname then mkRat (-5) 1 else 0
    let finalScore := ratAdd scoring.weightedScore builderPenalty
    let lead : Lead :=
      { source := c.source, sourceUrl := c.href, sourceHost := c.hostname,
        canonical := canonical, title := title, status := first.status,
        weightedScore := finalScore, filterReason := "" }
    routeStep (isBuilder c.hostname) scoring finalScore lead

/-- The loop body for one candidate (lines 473–593): aggregator skip,
dedup check against the loaded index, the GitHub special case, then the
enrichment tail. -/
def processOne (oracle : String → NetOutcome) (existingKeys : List String)
    (c : Candidate) : StepOut :=
  if shouldSkip c.hostname then .aggregator
  else
    let canonical := getCanonical c.hostname
    let regDomain := jsOr (parseDomain c.hostname).hostname c.hostname
    if canonical ∈ existingKeys then .duplicate
    else if regDomain = "github.com" ∧ shouldSkip c.hostname = false then
      let first := netToResult (oracle c.href)
      if first.html = "" then .githubDrop
      else .github (resolveGitHubRepo first.html c.href)
    else enrichCandidate oracle c

/-- The run statistics and output accumulators of the main loop. -/
structure RunState where
  newLeads : List Lead
  filteredLeads : List Lead
  processed : Nat
  skipped : Nat
  aggregator : Nat
  builder : Nat
  below_threshold : Nat
  no_dev_signal : Nat
  no_team_cue : Nat
  otherFiltered : Nat
  sources : String → Nat

/-- The state at loop entry. -/
def initialRunState : RunState :=
  ⟨[], [], 0, 0, 0, 0, 0, 0, 0, 0, fun _ => 0⟩

/-- `stats.sources[source] = (stats.sources[source] || 0) + 1`. -/
def bumpSource (st : RunState) (source : String) : RunState :=
  { st with sources := fun k => if k = source then st.sources k + 1 else st.sources k }

/-- The dynamic bump `stats.filtered[scoring.filterReason]++`; in the
non-builder filtered branch the reason is always one of the three scorer
reasons, so `otherFiltered` is an unreachable fallback. -/
def bumpFilteredReason (st : RunState) (reason : String) : RunState :=
  if reason = "below_threshold" then
    { st with below_threshold := st.below_threshold + 1 }
  else if reason = "no_dev_signal" then
    { st with no_dev_signal := st.no_dev_signal + 1 }
  else if reason = "no_team_cue" then
    { st with no_team_cue := st.no_team_cue + 1 }
  else { st with otherFiltered := st.otherFiltered + 1 }

/-- The state update of the filtered branch (lines 582–589): bump the
builder counter or the reason counter, then append to the filtered
output. -/
def applyFiltered (st : RunState) (lead : Lead) : RunState :=
  let st2 :=
    if lead.filterReason = "builder_platform" then
      { st with builder := st.builder + 1 }
    else bumpFilteredReason st lead.filterReason
  { st2 with filteredLeads := st2.filteredLeads ++ [lead] }

/-- A candidate injected by the GitHub resolution
(`urls.add(externalUrl); sourceMap.set(externalUrl, source)`). -/
def mkCandidate (link source : String) : Candidate :=
  { href := link, hostname := (urlHostname link).getD "", source := source }

/-- The main loop as a work-queue fold.  `seen` carries the membership of
the JS `urls` set (so a link already present is not enqueued again); the
fuel argument bounds the recursion structurally. -/
def runLoop (oracle : String → NetOutcome) (existingKeys : List String) :
    Nat → List Candidate → List String → RunState → RunState
  | 0, _, _, st => st
  | _ + 1, [], _, st => st
  | fuel + 1, c :: rest, seen, st =>
    let st1 := bumpSource st c.source
    match processOne oracle existingKeys c with
    | .aggregator =>
      runLoop oracle existingKeys fuel rest seen
        { st1 with aggregator := st1.aggregator + 1 }
    | .duplicate =>
      runLoop oracle existingKeys fuel rest seen
        { st1 with skipped := st1.skipped + 1 }
    | .githubDrop => runLoop oracle existingKeys fuel rest seen st1
    | .github none =>
      runLoop oracle existingKeys fuel rest seen
        { st1 with aggregator := st1.aggregator + 1 }
    | .github (some link) =>
      let st2 := { st1 with aggregator := st1.aggregator + 1 }
      if link ∈ seen then runLoop oracle existingKeys fuel rest seen st2
      else
        runLoop oracle existingKeys fuel (rest ++ [mkCandidate link c.source])
          (link :: seen) st2
    | .fetchFailed => runLoop oracle existingKeys fuel rest seen st1
    | .filtered lead =>
      runLoop oracle existingKeys fuel rest seen (applyFiltered st1 lead)
    | .kept lead =>
      runLoop oracle existingKeys fuel rest seen
        { st1 with newLeads := st1.newLeads ++ [lead],
                   processed := st1.processed + 1 }

/-- One pipeline run over the deduplicated input candidates.  The fuel
`2·n + 1` covers the queue plus every injection the GitHub branch could
at most attempt. -/
def runPipeline (oracle : String → NetOutcome) (existingKeys : List String)
    (cands : List Candidate) : RunState :=
  runLoop oracle existingKeys (2 * cands.length + 1) cands
    (cands.map (·.href)) initialRunState

/-- One persisted lead row as the load phase sees it: its CSV column
count (`parts.length` after the comma split), its canonical key
(`parts[3]`, the empty string when the column is absent or empty) and the
hostname of its stored `source_url` (`none` models a row whose URL fails
to parse — the catch keeps such rows). -/
structure StoredLead where
  columns : Nat
  canonical : String
  sourceHost : Option String
  deriving DecidableEq

/-- The load-phase filter (lines 23–46): a row enters the dedup index iff
it has more than 2 columns (line 29), its canonical is non-empty and its
source hostname is not a skip domain (rows with unparseable URLs are
kept). -/
def loadKeep (sl : StoredLead) : Bool :=
  decide (2 < sl.columns) &&
    (sl.canonical != "" &&
      (match sl.sourceHost with
       | none => true
       | some h => !shouldSkip h))

/-- The rows that survive the load phase (the `existingLeads` map). -/
def loadStored (store : List StoredLead) : List StoredLead :=
  store.filter loadKeep

/-- A candidate whose host never answers. -/
def c8witCand : Candidate :=
  { href := "https://ghostsite.example", hostname := "ghostsite.example",
    source := "showhn" }

/-- The computable addition agrees with rational addition. -/
theorem ratAdd_eq_add (a b : Rat) : ratAdd a b = a + b :=
  (Rat.add_def' a b).symm

/-- Trimming never lengthens a string. -/
theorem length_jsTrim_le (cs : List Char) : (jsTrim cs).length ≤ cs.length := by
  unfold jsTrim
  calc ((cs.dropWhile isJsSpace).reverse.dropWhile isJsSpace).reverse.length
      = ((cs.dropWhile isJsSpace).reverse.dropWhile isJsSpace).length := by
        rw [List.length_reverse]
    _ ≤ (cs.dropWhile isJsSpace).reverse.length :=
        (List.dropWhile_sublist isJsSpace).length_le
    _ = (cs.dropWhile isJsSpace).length := by rw [List.length_reverse]
    _ ≤ cs.length := (List.dropWhile_sublist isJsSpace).length_le

/-- The score component of the token scan is the sum of the weights of
exactly the matched entries. -/
theorem foldl_scanToken_fst (text : List Char) :
    ∀ (ws : List (String × Rat)) (a : Rat) (sg : Signals),
      (ws.foldl (scanToken text) (a, sg)).1 =
        a + ((ws.filter fun tw => testWordRegex text tw.1.data).map Prod.snd).sum := by
  intro ws
  induction ws with
  | nil => intro a sg; simp
  | cons tw ws ih =>
    intro a sg
    rw [List.foldl_cons]
    by_cases h : testWordRegex text tw.1.data = true
    · rw [show scanToken text (a, sg) tw = (ratAdd a tw.2, classifyToken sg tw.1 tw.2) from by
        simp [scanToken, h]]
      rw [ih, ratAdd_eq_add]
      simp only [List.filter_cons, h, if_true, List.map_cons, List.sum_cons]
      ring
    · rw [show scanToken text (a, sg) tw = (a, sg) from by simp [scanToken, h]]
      rw [ih]
      simp only [List.filter_cons, h, if_false, Bool.false_eq_true]

/-! ## C1 — identity resolution -/

/-- C1: the claim asserts that ordinary hostnames canonicalize to their
registrable domain, so that `www.example.com` and `example.com` share one
Identity.  The multi-tenant half holds, but the ordinary half fails: the
source loads the tldts `hostname` field (the full hostname) instead of
the registrable-domain field into its `regDomain` variable, so
`getCanonical "www.example.com"` is `"www.example.com"`, a distinct
Identity from `"example.com"`. -/
theorem c1_canonical_regdomain_bug :
    getCanonical "a.vercel.app" = "a.vercel.app" ∧
    getCanonical "b.vercel.app" = "b.vercel.app" ∧
    getCanonical "www.example.com" = "www.example.com" ∧
    getCanonical "example.com" = "example.com" ∧
    getCanonical "www.example.com" ≠ getCanonical "example.com" := by
  decide

/-! ## C9 — totality of canonicalization -/

/-- C9: `getCanonical` is total: when the domain parse yields no hostname
it falls back to the raw hostname, and in every case the result is the
raw hostname or its lower-casing — never an error. -/
theorem c9_getCanonical_total (h : String) :
    ((parseDomain h).hostname = none → getCanonical h = h) ∧
    (getCanonical h = h ∨ getCanonical h = String.mk (toLowerList h.data)) := by
  constructor
  · intro hnone
    simp only [getCanonical, hnone, jsOr]
    exact ite_self h
  · by_cases hv : validHostname (toLowerList h.data) = true
    · have hp : (parseDomain h).hostname = some (String.mk (toLowerList h.data)) := by
        simp [parseDomain, hv]
      simp only [getCanonical, hp, jsOr]
      split
      · exact Or.inl rfl
      · split
        · exact Or.inl rfl
        · exact Or.inr rfl
    · have hp : (parseDomain h).hostname = none := by
        simp [parseDomain, hv]
      refine Or.inl ?_
      simp only [getCanonical, hp, jsOr]
      exact ite_self h

/-- Witness for C9 at the malformed hostname `"!!"`. -/
theorem c9_getCanonical_total_witness :
    (parseDomain "!!").hostname = none ∧ getCanonical "!!" = "!!" :=
  ⟨by decide, (c9_getCanonical_total "!!").1 (by decide)⟩

/-! ## C3 — threshold ordering -/

/-- C3: a candidate below the minimum score with no dev and no team
signal is filtered with reason `below_threshold`: the minimum-score check
runs first and the first failing check sets the reason. -/
theorem c3_threshold_ordering (html title u : String)
    (hscore : (scoreContent html title u).weightedScore < THRESHOLDS.minimum_score)
    (hdev : (scoreContent html title u).hasDevSignal = false)
    (hteam : (scoreContent html title u).hasTeamCue = false) :
    (scoreContent html title u).filterReason = "below_threshold" ∧
    (scoreContent html title u).passed = false := by
  have hip : (scoreContent html title u).weightedScore =
      (scanWeights (scoreText html title)).1 := rfl
  rw [hip] at hscore
  have hm : decide (THRESHOLDS.minimum_score ≤ (scanWeights (scoreText html title)).1) = false :=
    decide_eq_false (not_le.mpr hscore)
  constructor
  · show (passFail (decide (THRESHOLDS.minimum_score ≤ (scanWeights (scoreText html title)).1))
      (!(scanWeights (scoreText html title)).2.dev.isEmpty)
      (!(scanWeights (scoreText html title)).2.team.isEmpty)).2 = "below_threshold"
    rw [hm]
    rfl
  · show (passFail (decide (THRESHOLDS.minimum_score ≤ (scanWeights (scoreText html title)).1))
      (!(scanWeights (scoreText html title)).2.dev.isEmpty)
      (!(scanWeights (scoreText html title)).2.team.isEmpty)).1 = false
    rw [hm]
    rfl

/-- Witness for C3: the page text `"pricing signup demo"` scores 3 with
no dev and no team token. -/
theorem c3_threshold_ordering_witness :
    (scoreContent "pricing signup demo" "" "").weightedScore < THRESHOLDS.minimum_score ∧
    (scoreContent "pricing signup demo" "" "").hasDevSignal = false ∧
    (scoreContent "pricing signup demo" "" "").hasTeamCue = false ∧
    (scoreContent "pricing signup demo" "" "").filterReason = "below_threshold" ∧
    (scoreContent "pricing signup demo" "" "").passed = false :=
  ⟨by decide, by decide, by decide,
   (c3_threshold_ordering "pricing signup demo" "" "" (by decide) (by decide) (by decide)).1,
   (c3_threshold_ordering "pricing signup demo" "" "" (by decide) (by decide) (by decide)).2⟩

/-! ## C6 — the score is the sum of matched weights -/

/-- C6: for every input text, the numeric score is the sum of the
configured weights of exactly those `WEIGHTS` entries whose token matches
as a whole word or phrase (with `\b` boundaries, against the lower-cased
combined text) — each entry contributing its weight once, however many
times the token occurs. -/
theorem c6_score_sum_of_matched (html title u : String) :
    (scoreContent html title u).weightedScore =
      ((WEIGHTS.filter fun tw =>
        testWordRegex (scoreText html title) tw.1.data).map Prod.snd).sum := by
  have hip : (scoreContent html title u).weightedScore =
      (scanWeights (scoreText html title)).1 := rfl
  rw [hip, scanWeights, foldl_scanToken_fst]
  simp

/-! ## C5 — email filtering, ranking and confidence -/

/-- C5: on page text carrying the three addresses, extraction drops
`noreply@acme.com`, ranks `hello@acme.com` ahead of `support@acme.com`,
and the derived confidence label is `high`. -/
theorem c5_email_filtering :
    extractEmails "Contact: noreply@acme.com hello@acme.com support@acme.com" =
      ["hello@acme.com", "support@acme.com"] ∧
    getEmailConfidence
      (extractEmails "Contact: noreply@acme.com hello@acme.com support@acme.com") =
      "high" := by
  decide

/-! ## C10 — value proposition cascade and cap -/

/-- C10: the extracted value proposition never exceeds 120 characters,
and a non-empty `h1` of fewer than 10 characters is treated exactly like
an absent one — the meta description, the Open-Graph description and the
first paragraph of trimmed length strictly between 20 and 200 are
consulted just as if no `h1` existed. -/
theorem c10_valueprop_short_h1 (p : Page) :
    (extractValueProp p).length ≤ 120 ∧
    (∀ h1text, p.h1 = some h1text → jsTrim h1text.data ≠ [] →
      (jsTrim h1text.data).length < 10 →
      extractValueProp p = extractValueProp { p with h1 := none }) := by
  constructor
  · have h0 : (extractValueProp p).length =
        (jsTrim ((vpChoice p).take 120)).length := rfl
    rw [h0]
    exact le_trans (length_jsTrim_le _) (List.length_take_le _ _)
  · intro h1text hsome _ hlen
    have hshort : vpTooShort (jsTrim h1text.data) = true := by
      simp [vpTooShort, hlen]
    have hempty : vpTooShort (jsTrim ("" : String).data) = true := rfl
    have hchoice : vpChoice p = vpChoice { p with h1 := none } := by
      simp only [vpChoice, hsome, Option.getD_some, Option.getD_none,
        hshort, hempty, if_true]
    simp only [extractValueProp, hchoice]

/-- Witness for C10: a nine-character `h1` is passed over in favour of
the meta description. -/
theorem c10_valueprop_short_h1_witness :
    ((extractValueProp
        { h1 := some "Short h1!",
          metaDescription := some "A collaborative platform for modern developer teams",
          ogDescription := none, paragraphs := [] }).length ≤ 120) ∧
    jsTrim ("Short h1!" : String).data ≠ [] ∧
    (jsTrim ("Short h1!" : String).data).length < 10 ∧
    extractValueProp
        { h1 := some "Short h1!",
          metaDescription := some "A collaborative platform for modern developer teams",
          ogDescription := none, paragraphs := [] } =
      extractValueProp
        { h1 := none,
          metaDescription := some "A collaborative platform for modern developer teams",
          ogDescription := none, paragraphs := [] } :=
  ⟨(c10_valueprop_short_h1 _).1, by decide, by decide,
   (c10_valueprop_short_h1 _).2 "Short h1!" rfl (by decide) (by decide)⟩

/-! ## C4 — probe-cache keys are per calendar day -/

/-- Strings appended through `++` concatenate their character lists. -/
theorem string_data_append (s t : String) : (s ++ t).data = s.data ++ t.data := by
  cases s; cases t; rfl

/-- Two cache keys for the same canonical and path agree only when their
day components agree (the modelled digest is injective). -/
theorem getCacheKey_day_inj (host path d d' : String)
    (hk : getCacheKey host path d = getCacheKey host path d') : d = d' := by
  unfold getCacheKey md5hex8 at hk
  injection hk with h1
  simp only [string_data_append, List.cons_append, List.append_assoc] at h1
  have h2 := List.append_cancel_left h1
  simp only [List.cons.injEq, true_and] at h2
  have h3 := List.append_cancel_left h2
  simp only [List.cons.injEq, true_and] at h3
  have h4 := List.append_cancel_left h3
  simp only [List.cons.injEq, true_and] at h4
  have h5 := List.append_cancel_left h4
  have h6 := List.append_cancel_left h5
  have h7 := List.append_cancel_right h6
  exact String.ext h7

/-- C4 counterexample: an entry written into the cache under the
2024-01-01 key, 120 seconds old and far inside the 7-day TTL, is not
found by a read on 2024-01-02 — the day component of the key changes, so
the read misses instead of reaching the age check.  (The claim asserts
the entry is still found.) -/
theorem c4_day_rollover_misses :
    getCacheKey "acme.com" "/pricing" "2024-01-01" ≠
      getCacheKey "acme.com" "/pricing" "2024-01-02" ∧
    readCache
      (fun k => if k = getCacheKey "acme.com" "/pricing" "2024-01-01"
        then some { status := 200, html := "cached body", timestamp := 1704153540000 }
        else none)
      "2024-01-02" 1704153660000 "acme.com" "/pricing" = none ∧
    1704153660000 - 1704153540000 < CACHE_TTL_MS ∧
    (fetchHtml (.ok 200 "fresh body")
      (fun k => if k = getCacheKey "acme.com" "/pricing" "2024-01-01"
        then some { status := 200, html := "cached body", timestamp := 1704153540000 }
        else none)
      "2024-01-02" 1704153660000 "acme.com" "/pricing" 5000 true).1 =
      { status := 200, html := "fresh body", cached := false } := by
  decide

/-- C4 amended: a probe-cache entry is served only when read on the same
calendar day it was written: the current day enters the cache key, so a
read on any other day computes a different key and misses; on the same
day the entry is served exactly when its age is below the 7-day TTL. -/
theorem c4_cache_key_daily (store : String → Option CacheEntry)
    (host path d d' : String) (e : CacheEntry) (now : Nat)
    (hstore : ∀ k, store k = if k = getCacheKey host path d then some e else none) :
    (d ≠ d' → readCache store d' now host path = none) ∧
    (now - e.timestamp < CACHE_TTL_MS → readCache store d now host path = some e) := by
  constructor
  · intro hne
    unfold readCache
    rw [hstore]
    rw [if_neg fun hkey => hne (getCacheKey_day_inj host path d d' hkey.symm)]
  · intro hfresh
    unfold readCache
    rw [hstore, if_pos rfl]
    simp [hfresh]

/-- Witness for the amended C4 statement at concrete days. -/
theorem c4_cache_key_daily_witness :
    ("2024-01-01" : String) ≠ "2024-01-02" ∧
    readCache
      (fun k => if k = getCacheKey "acme.com" "/docs" "2024-01-01"
        then some { status := 200, html := "body", timestamp := 5000 }
        else none)
      "2024-01-02" 6000 "acme.com" "/docs" = none ∧
    (6000 - 5000 < CACHE_TTL_MS) ∧
    readCache
      (fun k => if k = getCacheKey "acme.com" "/docs" "2024-01-01"
        then some { status := 200, html := "body", timestamp := 5000 }
        else none)
      "2024-01-01" 6000 "acme.com" "/docs" =
      some { status := 200, html := "body", timestamp := 5000 } :=
  ⟨by decide,
   (c4_cache_key_daily _ "acme.com" "/docs" "2024-01-01" "2024-01-02" _ 6000
     (fun _ => rfl)).1 (by decide),
   by decide,
   (c4_cache_key_daily _ "acme.com" "/docs" "2024-01-01" "2024-01-02" _ 6000
     (fun _ => rfl)).2 (by decide)⟩

/-! ## C7 — fetch failures are non-fatal -/

/-- C7: any failed fetch (network error, timeout abort, unreadable body —
all surfacing as `NetOutcome.err`) yields status 0 with an empty body and
no cache write, instead of an exception; and the subpage probing step
treats such failures as contributing no text, so the candidate continues
through the pipeline with whatever other data exists. -/
theorem c7_fetch_failure_nonfatal :
    (∀ (store : String → Option CacheEntry) (today : String) (now : Nat)
        (host path : String) (timeoutMs : Nat) (useCache : Bool),
      (useCache = true → readCache store today now host path = none) →
      fetchHtml .err store today now host path timeoutMs useCache =
        ({ status := 0, html := "", cached := false }, [])) ∧
    (∀ home, probesHtml (fun _ => NetOutcome.err) home = "") := by
  constructor
  · intro store today now host path timeoutMs useCache hmiss
    cases useCache with
    | false => rfl
    | true =>
      unfold fetchHtml
      rw [if_pos rfl, hmiss rfl]
  · intro home
    rfl

/-- Witness for C7 on a cold cache. -/
theorem c7_fetch_failure_nonfatal_witness :
    readCache (fun _ => none) "2024-01-01" 0 "acme.dev" "/docs" = none ∧
    fetchHtml .err (fun _ => none) "2024-01-01" 0 "acme.dev" "/docs" 5000 true =
      ({ status := 0, html := "", cached := false }, []) ∧
    probesHtml (fun _ => NetOutcome.err) "https://acme.dev" = "" :=
  ⟨rfl,
   c7_fetch_failure_nonfatal.1 (fun _ => none) "2024-01-01" 0 "acme.dev" "/docs"
     5000 true (fun _ => rfl),
   c7_fetch_failure_nonfatal.2 "https://acme.dev"⟩

/-! ## Orchestrator lemmas -/

/-- An empty queue leaves the state unchanged, whatever the fuel. -/
theorem runLoop_nil (oracle : String → NetOutcome) (keys : List String)
    (fuel : Nat) (seen : List String) (st : RunState) :
    runLoop oracle keys fuel [] seen st = st := by
  cases fuel <;> rfl

/-- A hostname whose `regDomain` value is `github.com` is always
skip-classified — `github.com` is a skip domain and `shouldSkip` computes
the very same `regDomain` expression. -/
theorem shouldSkip_of_github (x : String)
    (h : jsOr (parseDomain x).hostname x = "github.com") :
    shouldSkip x = true := by
  simp only [shouldSkip, h]
  decide

/-- The GitHub-resolution branch is unreachable: reaching it requires the
aggregator check to have failed, yet its own guard forces that check to
succeed.  The loop body therefore reduces to skip test, dedup test and
the enrichment tail. -/
theorem processOne_eq (oracle : String → NetOutcome) (keys : List String)
    (c : Candidate) :
    processOne oracle keys c =
      if shouldSkip c.hostname then .aggregator
      else if getCanonical c.hostname ∈ keys then .duplicate
      else enrichCandidate oracle c := by
  by_cases hs : shouldSkip c.hostname = true
  · simp [processOne, hs]
  · have hb : shouldSkip c.hostname = false := by
      cases hsk : shouldSkip c.hostname
      · rfl
      · exact absurd hsk hs
    have hreg : jsOr (parseDomain c.hostname).hostname c.hostname ≠ "github.com" := by
      intro hg
      rw [shouldSkip_of_github c.hostname hg] at hb
      exact Bool.noConfusion hb
    simp [processOne, hs, hreg]

/-- Bumping a source counter leaves the outputs untouched. -/
theorem bumpSource_newLeads (st : RunState) (s : String) :
    (bumpSource st s).newLeads = st.newLeads := rfl

/-- The load filter is idempotent: rows written back by a run survive the
next load unchanged. -/
theorem loadStored_idem (s : List StoredLead) :
    loadStored (loadStored s) = loadStored s := by
  simp [loadStored, List.filter_filter]

/-- C8 counterexample: a candidate whose primary and fallback fetches
both fail contributes no lead to either output, and no statistics
counter records the drop — every counter stays zero; only the per-source
candidate count (taken before fetching) shows the candidate.  The claim
asserts the drop is counted in the run statistics. -/
theorem c8_fetch_failed_uncounted :
    (runPipeline (fun _ => NetOutcome.err) [] [c8witCand]).newLeads = [] ∧
    (runPipeline (fun _ => NetOutcome.err) [] [c8witCand]).filteredLeads = [] ∧
    (runPipeline (fun _ => NetOutcome.err) [] [c8witCand]).processed = 0 ∧
    (runPipeline (fun _ => NetOutcome.err) [] [c8witCand]).skipped = 0 ∧
    (runPipeline (fun _ => NetOutcome.err) [] [c8witCand]).aggregator = 0 ∧
    (runPipeline (fun _ => NetOutcome.err) [] [c8witCand]).builder = 0 ∧
    (runPipeline (fun _ => NetOutcome.err) [] [c8witCand]).below_threshold = 0 ∧
    (runPipeline (fun _ => NetOutcome.err) [] [c8witCand]).no_dev_signal = 0 ∧
    (runPipeline (fun _ => NetOutcome.err) [] [c8witCand]).no_team_cue = 0 ∧
    (runPipeline (fun _ => NetOutcome.err) [] [c8witCand]).otherFiltered = 0 ∧
    (runPipeline (fun _ => NetOutcome.err) [] [c8witCand]).sources "showhn" = 1 := by
  decide

/-- C8 amended: a candidate whose original-URL fetch and whose fallback
fetch of `https://` + Identity both yield an empty body terminates as
`fetchFailed`: it is dropped, no lead reaches either output table, and
the resulting run state is exactly the input state with only the
per-source candidate counter bumped — no counter records the drop
itself. -/
theorem c8_fetch_failed_dropped (oracle : String → NetOutcome)
    (keys : List String) (c : Candidate) (seen : List String) (st : RunState)
    (fuel : Nat)
    (hs : shouldSkip c.hostname = false)
    (hmem : getCanonical c.hostname ∉ keys)
    (h1 : (netToResult (oracle c.href)).html = "")
    (h2 : (netToResult (oracle ("https://" ++ getCanonical c.hostname))).html = "") :
    processOne oracle keys c = .fetchFailed ∧
    runLoop oracle keys (fuel + 1) [c] seen st = bumpSource st c.source := by
  have hpage : (pickPage oracle c ("https://" ++ getCanonical c.hostname)).html = "" := by
    simp [pickPage, h1, h2]
  have hstep : processOne oracle keys c = .fetchFailed := by
    rw [processOne_eq]
    simp only [hs, Bool.false_eq_true, if_false, hmem, if_neg, not_false_iff]
    simp only [enrichCandidate]
    simp [hpage]
  refine ⟨hstep, ?_⟩
  have h3 : runLoop oracle keys (fuel + 1) [c] seen st =
      runLoop oracle keys fuel [] seen (bumpSource st c.source) := by
    simp only [runLoop, hstep]
  rw [h3, runLoop_nil]

/-- Witness for the amended C8 statement on a dead host. -/
theorem c8_fetch_failed_dropped_witness :
    shouldSkip c8witCand.hostname = false ∧
    getCanonical c8witCand.hostname ∉ ([] : List String) ∧
    (netToResult ((fun _ => NetOutcome.err) c8witCand.href)).html = "" ∧
    (netToResult ((fun _ => NetOutcome.err)
      ("https://" ++ getCanonical c8witCand.hostname))).html = "" ∧
    processOne (fun _ => NetOutcome.err) [] c8witCand = .fetchFailed ∧
    runLoop (fun _ => NetOutcome.err) [] 1 [c8witCand] [c8witCand.href]
      initialRunState = bumpSource initialRunState "showhn" :=
  ⟨by decide, by decide, rfl, rfl,
   (c8_fetch_failed_dropped (fun _ => NetOutcome.err) [] c8witCand
     [c8witCand.href] initialRunState 0 (by decide) (by decide) rfl rfl).1,
   (c8_fetch_failed_dropped (fun _ => NetOutcome.err) [] c8witCand
     [c8witCand.href] initialRunState 0 (by decide) (by decide) rfl rfl).2⟩

end Leads
